import Mathlib

/-!
# restQL-golang: query runner and web front end

A shallow embedding of the parts of `internal/runner/runner.go`,
`internal/platform/web/restql.go` and their collaborators that the
properties below are about.

Conventions of the embedding:

* a Go `map[string]T` is an association list `List (String × T)` read with
  `List.lookup`; ranging over a map is ranging over the list;
* a Go `interface{}` that may be `nil` is an `Option`;
* a `select` statement is resolved by an explicit argument saying which of
  its cases fired;
* `time.Duration` is an `Int` of nanoseconds, reduced into the signed 64-bit
  range after arithmetic.
-/

namespace RestQL

/-! ## Domain model -/

abbrev ResourceId := String

/-- Dynamic values (`interface{}`) carried by statements, modifiers and
responses: primitives, lists, objects, `$variable` references and chains. -/
inductive Value where
  | int (n : Int)
  | str (s : String)
  | list (vs : List Value)
  | object (kvs : List (String × Value))
  | variable (name : String)
  | chain (path : List String)

structure CacheControl where
  MaxAge : Option Value
  SMaxAge : Option Value

structure Statement where
  Method : String
  Resource : String
  Alias : String
  In : List String
  With : List (String × Value)
  Headers : List (String × Value)
  Only : List String
  Hidden : Bool
  IgnoreErrors : Bool
  Timeout : Option Value
  CacheControl : CacheControl

abbrev Modifiers := List (String × Value)

abbrev Response := Value

/-- One slot of `domain.Resources`: a statement, the statements a multiplexed
statement expanded to, a response, or the placeholder of a slot without one. -/
inductive Resource where
  | stmt (s : Statement)
  | multi (ss : List Statement)
  | done (r : Response)
  | placeholder

abbrev Resources := List (ResourceId × Resource)

structure Query where
  Use : Modifiers
  Statements : List Statement

/-- A statement with only its resource name set, like the Go literal
`domain.Statement{Resource: name}`. -/
def Statement.named (name : String) : Statement :=
  { Method := "", Resource := name, Alias := "", In := [], With := [], Headers := [],
    Only := [], Hidden := false, IgnoreErrors := false, Timeout := none,
    CacheControl := { MaxAge := none, SMaxAge := none } }

/-! ## Chain dependencies -/

mutual
/-- Heads of the chains occurring in a value: the resource identifiers the
value refers to. -/
def Value.chainHeads : Value → List ResourceId
  | .chain (h :: _) => [h]
  | .list vs => chainHeadsList vs
  | .object kvs => chainHeadsObject kvs
  | _ => []
/-- Chain heads of the elements of a list value. -/
def chainHeadsList : List Value → List ResourceId
  | [] => []
  | v :: vs => v.chainHeads ++ chainHeadsList vs
/-- Chain heads of the entries of an object value or of a `with` mapping. -/
def chainHeadsObject : List (String × Value) → List ResourceId
  | [] => []
  | (_, v) :: kvs => v.chainHeads ++ chainHeadsObject kvs
end

def Statement.chainDeps (s : Statement) : List ResourceId :=
  chainHeadsObject s.With

def Resource.chainDeps : Resource → List ResourceId
  | .stmt s => s.chainDeps
  | .multi ss => ss.flatMap Statement.chainDeps
  | _ => []

def Resource.hidden : Resource → Bool
  | .stmt s => s.Hidden
  | .multi ss => ss.any (·.Hidden)
  | _ => false

/-! ## State -/

inductive Lifecycle where
  | pending
  | requested
  | done
  | failed
  deriving DecidableEq, Repr

structure Entry where
  id : ResourceId
  resource : Resource
  status : Lifecycle
  response : Option Response

/-- Modelled from the spec: `State` of the runner package (`NewState`,
`Available`, `SetAsRequest`, `UpdateDone`, `HasFinished`, `Done`), which
`runner.go` uses and does not define. It tracks the lifecycle of every
resource, in declaration order. -/
abbrev State := List Entry

/-- Modelled from the spec: `NewState`; every resource starts `pending`. -/
def NewState (rs : Resources) : State :=
  rs.map fun x => { id := x.1, resource := x.2, status := .pending, response := none }

def State.isDone (st : State) (id : ResourceId) : Bool :=
  st.any fun e => e.id == id && e.status == .done

/-- Modelled from the spec: `Available()` is the subset of pending resources
whose chain dependencies are all `done`. -/
def State.Available (st : State) : Resources :=
  (st.filter fun e => e.status == .pending && e.resource.chainDeps.all st.isDone).map
    fun e => (e.id, e.resource)

def Entry.setAsRequest (id : ResourceId) (e : Entry) : Entry :=
  if e.id == id && e.status == .pending then { e with status := .requested } else e

/-- Modelled from the spec: `SetAsRequest(id)` transitions pending→requested. -/
def State.SetAsRequest (st : State) (id : ResourceId) : State :=
  st.map (Entry.setAsRequest id)

def Entry.updateDone (id : ResourceId) (response : Response) (e : Entry) : Entry :=
  if e.id == id && e.status == .requested then
    { e with status := .done, response := some response }
  else e

/-- Modelled from the spec: `UpdateDone(id, response)` transitions
requested→done and stores the response; on an id that is not requested no
transition is taken. -/
def State.UpdateDone (st : State) (id : ResourceId) (response : Response) : State :=
  st.map (Entry.updateDone id response)

/-- Modelled from the spec: `HasFinished()` holds when every resource is
terminal. -/
def State.HasFinished (st : State) : Bool :=
  st.all fun e => e.status == .done || e.status == .failed

/-- Modelled from the spec: `Done()` is the snapshot of the resource→response
mapping; hidden resources and resources without a response hold a
placeholder. -/
def State.Done (st : State) : Resources :=
  st.map fun e =>
    (e.id, match e.response with
      | some r => if e.resource.hidden then Resource.placeholder else Resource.done r
      | none => Resource.placeholder)

/-- The resource each entry was created from. -/
def State.resources (st : State) : Resources :=
  st.map fun e => (e.id, e.resource)

/-! ## Scheduler: `stateWorker.Run` -/

structure request where
  ResourceIdentifier : ResourceId
  Statement : Resource

structure result where
  ResourceIdentifier : ResourceId
  Response : Response

/-- The resource transformations `stateWorker.Run` applies between
`Available()` and the emission of the requests; they are defined outside
`runner.go` and are taken as parameters. -/
structure Pipeline where
  ResolveChainedValues : Resources → Resources → Resources
  ApplyEncoders : Resources → Resources
  MultiplexStatements : Resources → Resources
  UnwrapNoMultiplex : Resources → Resources

/-- Lines 170-173 of `runner.go`. -/
def Pipeline.prepare (p : Pipeline) (available done : Resources) : Resources :=
  p.UnwrapNoMultiplex (p.MultiplexStatements (p.ApplyEncoders
    (p.ResolveChainedValues available done)))

/-- The transformations keep every statement under a resource identifier it
came in with (spec §4.4: "under the same resource identifier"). -/
def Pipeline.KeepsIds (p : Pipeline) : Prop :=
  ∀ available done, ∀ x ∈ p.prepare available done, x.1 ∈ available.map Prod.fst

/-- What the scheduler does, in program order. `sendRequest` is the launch of
the goroutine that pushes the request onto `requestCh` (line 177): the push
itself happens after the launch. -/
inductive SchedEvent where
  | setAsRequest (id : ResourceId)
  | sendRequest (req : request)
  | updateDone (id : ResourceId) (response : Response)
  | output (rs : Resources)

/-- The case of the `select` at line 185 that fires. -/
inductive Incoming where
  | result (r : result)
  | ctxDone

/-- Lines 166-168 of `runner.go`: every available resource is set as
requested. -/
def markRequested (st : State) (available : Resources) : State :=
  available.foldl (fun s x => s.SetAsRequest x.1) st

/-- The requests one iteration of the loop emits (lines 165-183). -/
def emitted (p : Pipeline) (st : State) : List request :=
  (p.prepare st.Available (markRequested st st.Available).Done).map
    fun x => { ResourceIdentifier := x.1, Statement := x.2 }

/-- The events of one pass through lines 165-183: the available resources
are set as requested, then their requests are emitted. -/
def iterationEvents (p : Pipeline) (st : State) : List SchedEvent :=
  st.Available.map (fun x => SchedEvent.setAsRequest x.1) ++
    (emitted p st).map SchedEvent.sendRequest

/-- The scheduler loop `stateWorker.Run` (lines 163-194), run against the
sequence of cases its `select` takes. When the sequence ends the worker is
blocked on the `select`; on `ctxDone` it returns without output. -/
def stateWorker.Run (p : Pipeline) : State → List Incoming → List SchedEvent
  | st, [] =>
    if st.HasFinished then [SchedEvent.output st.Done] else iterationEvents p st
  | st, .ctxDone :: _ =>
    if st.HasFinished then [SchedEvent.output st.Done] else iterationEvents p st
  | st, .result r :: rest =>
    if st.HasFinished then [SchedEvent.output st.Done]
    else
      iterationEvents p st ++
        SchedEvent.updateDone r.ResourceIdentifier r.Response ::
          stateWorker.Run p
            ((markRequested st st.Available).UpdateDone r.ResourceIdentifier r.Response) rest

/-- Closed form of `markRequested`, entry by entry. -/
def markEntry (available : Resources) (e : Entry) : Entry :=
  if e.status == .pending && available.any (fun x => x.1 == e.id) then
    { e with status := .requested } else e

/-! ### A two-statement query used to exercise the scheduler -/

/-- A pipeline whose transformations leave the resources as they are. -/
def idPipeline : Pipeline :=
  { ResolveChainedValues := fun available _ => available
    ApplyEncoders := fun rs => rs
    MultiplexStatements := fun rs => rs
    UnwrapNoMultiplex := fun rs => rs }

def heroStatement : Statement := Statement.named "hero"

/-- The statement `from sidekick with id = hero.sidekickId`. -/
def sidekickStatement : Statement :=
  { Statement.named "sidekick" with With := [("id", Value.chain ["hero", "sidekickId"])] }

def heroSidekick : Resources :=
  [("hero", Resource.stmt heroStatement), ("sidekick", Resource.stmt sidekickStatement)]

def heroSidekickFeed : List Incoming :=
  [Incoming.result { ResourceIdentifier := "hero", Response := Value.int 7 },
   Incoming.result { ResourceIdentifier := "sidekick", Response := Value.int 1 }]

/-! ## Dispatcher: `requestWorker.Run` -/

/-- A Go `error` of the runner, by its message. -/
abbrev GoError := String

/-- The `Executor` interface; the worker's own `ctx` and `queryCtx`, passed
unchanged on every call, are left out of the signatures. A `none` error is
Go's `nil`. -/
structure Executor where
  DoStatement : Statement → Response × Option GoError
  DoMultiplexedStatement : List Statement → Response × Option GoError

/-- The case taken by a `select` between a channel send and `ctx.Done()`. -/
inductive SendOutcome where
  | sent
  | ctxDone
  deriving DecidableEq, Repr

/-- A value the dispatcher puts on one of its outgoing channels. -/
inductive DispatchEvent where
  | errorCh (err : GoError)
  | resultCh (r : result)

/-- Lines 216-222 (and 228-234): a non-nil error is offered to `errorCh`. -/
def forwardError (err : Option GoError) (sel : SendOutcome) : List DispatchEvent :=
  match err with
  | none => []
  | some e =>
    match sel with
    | .sent => [DispatchEvent.errorCh e]
    | .ctxDone => []

/-- The function `writeResult` (lines 244-249). -/
def writeResult (sel : SendOutcome) (r : result) : List DispatchEvent :=
  match sel with
  | .sent => [DispatchEvent.resultCh r]
  | .ctxDone => []

/-- The transport call the type switch at line 212 selects for a request
payload; payloads of any other type start no call. -/
def transportCall (ex : Executor) : Resource → Option (Response × Option GoError)
  | .stmt s => some (ex.DoStatement s)
  | .multi ss => some (ex.DoMultiplexedStatement ss)
  | _ => none

/-- The goroutine started for one request (lines 214-224 and 226-236), with
the cases its two `select`s take. -/
def handleRequest (ex : Executor) (req : request) (selErr selRes : SendOutcome) :
    List DispatchEvent :=
  match transportCall ex req.Statement with
  | none => []
  | some (response, err) =>
    forwardError err selErr ++
      writeResult selRes { ResourceIdentifier := req.ResourceIdentifier, Response := response }

/-- The case of the `select` at line 207 that fires; a request comes with the
cases the `select`s of its goroutine will take. -/
inductive DispatchInput where
  | request (req : request) (selErr selRes : SendOutcome)
  | ctxDone

/-- The dispatcher loop `requestWorker.Run` (lines 205-242): what the
goroutine of each consumed request puts on the channels, one list per
request, in the order the requests were consumed. -/
def requestWorker.Run (ex : Executor) : List DispatchInput → List (List DispatchEvent)
  | [] => []
  | .ctxDone :: _ => []
  | .request req selErr selRes :: rest =>
    handleRequest ex req selErr selRes :: requestWorker.Run ex rest

/-- Whether the statement(s) of a request payload carry `ignoreErrors`. -/
def Resource.ignoreErrors : Resource → Bool
  | .stmt s => s.IgnoreErrors
  | .multi ss => ss.all (·.IgnoreErrors)
  | _ => false

/-- An executor whose every transport call fails. -/
def failingExecutor : Executor :=
  { DoStatement := fun _ => (Value.object [], some "boom")
    DoMultiplexedStatement := fun _ => (Value.list [], some "boom") }

/-- The statement `from hero ignore-errors`. -/
def heroIgnoreErrors : Statement :=
  { Statement.named "hero" with IgnoreErrors := true }

/-! ## Modifiers -/

/-- Modelled from the spec: the per-statement part of `ApplyModifiers`,
which is not defined in `runner.go`. The `timeout` modifier fills a missing
statement timeout; `max-age` and its alias `cache-control` fill an unset
`CacheControl.MaxAge` (`max-age` first when both are given) and `s-max-age`
fills an unset `CacheControl.SMaxAge`. A field the statement has set is
kept. -/
def applyModifiersToStatement (modifiers : Modifiers) (s : Statement) : Statement :=
  { s with
    Timeout :=
      match s.Timeout with
      | some t => some t
      | none => modifiers.lookup "timeout"
    CacheControl :=
      { MaxAge :=
          match s.CacheControl.MaxAge with
          | some v => some v
          | none =>
            match modifiers.lookup "max-age" with
            | some v => some v
            | none => modifiers.lookup "cache-control"
        SMaxAge :=
          match s.CacheControl.SMaxAge with
          | some v => some v
          | none => modifiers.lookup "s-max-age" } }

/-- Apply a function to the statement(s) held by a slot. -/
def Resource.mapStatements (f : Statement → Statement) : Resource → Resource
  | .stmt s => .stmt (f s)
  | .multi ss => .multi (ss.map f)
  | r => r

/-- Modelled from the spec: `ApplyModifiers(resources, modifiers)`, called at
line 137 of `runner.go` and exercised by `TestApplyModifiers`, applies the
`use` clause to every statement; with no modifiers (an empty or nil map) the
resources are returned as they are. -/
def ApplyModifiers (resources : Resources) (modifiers : Modifiers) : Resources :=
  if modifiers.isEmpty then resources
  else resources.map fun x => (x.1, x.2.mapStatements (applyModifiersToStatement modifiers))

/-- The statement `from hero max-age 400`. -/
def heroMaxAge400 : Statement :=
  { Statement.named "hero" with
    CacheControl := { MaxAge := some (Value.int 400), SMaxAge := some (Value.int 400) } }

/-! ## Coordinator: `Runner.ExecuteQuery` -/

/-- Reduction of an integer into the range of a signed 64-bit machine
integer (`int64`, and `int` on 64-bit platforms). -/
def wrapInt64 (x : Int) : Int :=
  (x + 2 ^ 63) % 2 ^ 64 - 2 ^ 63

/-- Nanoseconds in `time.Millisecond`. -/
def Millisecond : Int := 1000000

/-- The part of a `context.Context` the runner depends on: its deadline, an
instant in nanoseconds, if it has one. -/
structure Context where
  deadline : Option Int
  deriving DecidableEq, Repr

/-- Go's `context.WithCancel`: the child has the deadline of its parent. -/
def Context.WithCancel (parent : Context) : Context := parent

/-- Go's `context.WithTimeout(parent, timeout)` called at instant `now`, that
is `WithDeadline(parent, now.Add(timeout))`: when the parent's deadline is
already sooner the child keeps it. -/
def Context.WithTimeout (parent : Context) (now timeout : Int) : Context :=
  match parent.deadline with
  | some cur =>
    if cur < now + timeout then parent.WithCancel else { deadline := some (now + timeout) }
  | none => { deadline := some (now + timeout) }

structure QueryInput where
  Params : List (String × Value)
  Headers : List (String × String)

structure QueryContext where
  Mappings : List (String × String)
  Input : QueryInput

structure Runner where
  executor : Executor
  globalQueryTimeout : Int

/-- The method `Runner.parseQueryTimeout` (lines 114-126). -/
def Runner.parseQueryTimeout (r : Runner) (query : Query) : Int × Bool :=
  match query.Use.lookup "timeout" with
  | none => (r.globalQueryTimeout, false)
  | some (Value.int duration) => (wrapInt64 (Millisecond * duration), true)
  | some _ => (r.globalQueryTimeout, false)

/-- Lines 53-59 of `ExecuteQuery`: the context the query runs under. -/
def Runner.queryContext (r : Runner) (ctx : Context) (now : Int) (query : Query) : Context :=
  match r.parseQueryTimeout query with
  | (queryTimeout, true) => ctx.WithTimeout now queryTimeout
  | (_, false) => ctx.WithCancel

/-- The functions `initializeResources` calls that are defined outside
`runner.go` and are not among those of `Pipeline`. -/
structure Initializers where
  NewResources : List Statement → Resources
  ResolveVariables : Resources → QueryInput → Resources
  ValidateChainedValues : Resources → Option GoError

/-- The method `Runner.initializeResources` (lines 128-142). -/
def Runner.initializeResources (_r : Runner) (i : Initializers) (p : Pipeline)
    (query : Query) (queryCtx : QueryContext) : Except GoError Resources :=
  let resources := i.NewResources query.Statements
  let resources := i.ResolveVariables resources queryCtx.Input
  match i.ValidateChainedValues resources with
  | some err => .error err
  | none =>
    let resources := ApplyModifiers resources query.Use
    let resources := p.ApplyEncoders resources
    let resources := p.MultiplexStatements resources
    .ok resources

def ErrQueryTimedOut : GoError := "query timed out"

/-- The case of the `select` at line 102 that fires, with what was received. -/
inductive Fired where
  | output (rs : Resources)
  | error (err : GoError)
  | ctxDone

/-- What a call of `ExecuteQuery` amounts to: the context its workers ran
under and the two values it returned (`none` is Go's `nil`). -/
structure Execution where
  ctx : Context
  resources : Option Resources
  err : Option GoError

/-- The method `Runner.ExecuteQuery` (lines 52-112), called at instant `now`. -/
def Runner.ExecuteQuery (r : Runner) (i : Initializers) (p : Pipeline) (ctx : Context)
    (now : Int) (query : Query) (queryCtx : QueryContext) (fired : Fired) : Execution :=
  let ctx := r.queryContext ctx now query
  match r.initializeResources i p query queryCtx with
  | .error err => { ctx := ctx, resources := none, err := some err }
  | .ok _ =>
    match fired with
    | .output output => { ctx := ctx, resources := some output, err := none }
    | .error err => { ctx := ctx, resources := none, err := some err }
    | .ctxDone => { ctx := ctx, resources := none, err := some ErrQueryTimedOut }

/-- Initializers that take one resource per statement, under its resource
name, and accept every chain. -/
def plainInitializers : Initializers :=
  { NewResources := fun ss => ss.map fun s => (s.Resource, Resource.stmt s)
    ResolveVariables := fun rs _ => rs
    ValidateChainedValues := fun _ => none }

def emptyQueryContext : QueryContext :=
  { Mappings := [], Input := { Params := [], Headers := [] } }

/-- A runner with a global query timeout of one second. -/
def oneSecondRunner : Runner :=
  { executor := failingExecutor, globalQueryTimeout := 1000 * Millisecond }

/-- The query `from hero` followed by `from sidekick with id = hero.sidekickId`. -/
def heroSidekickQuery : Query :=
  { Use := [], Statements := [heroStatement, sidekickStatement] }

/-- The query `use timeout 9223372036854775807` followed by `from hero`. -/
def hugeTimeoutQuery : Query :=
  { Use := [("timeout", Value.int 9223372036854775807)], Statements := [heroStatement] }

/-- The query `use timeout 50` followed by `from hero`. -/
def timeout50Query : Query :=
  { Use := [("timeout", Value.int 50)], Statements := [heroStatement] }

/-- The scheduler state of `heroSidekickQuery` once the response of `hero`
has been folded in and `sidekick` is still pending. -/
def heroDoneState : State :=
  (markRequested (NewState heroSidekick) (NewState heroSidekick).Available).UpdateDone
    "hero" (Value.int 7)

/-- The statement(s) held by a slot. -/
def Resource.statements : Resource → List Statement
  | .stmt s => [s]
  | .multi ss => ss
  | _ => []

/-- Assignment `m[key] = value` on a Go map: an existing key keeps its place
and gets the new value, a new key is added. -/
def mapSet {β : Type} (m : List (String × β)) (key : String) (value : β) :
    List (String × β) :=
  match m with
  | [] => [(key, value)]
  | (k, v) :: rest => if k == key then (key, value) :: rest else (k, v) :: mapSet rest key value

/-- The parts of a `fasthttp.RequestCtx` the handlers read: the user values
set by the router (path parameters), the query-string arguments and the
request headers in their order of occurrence, and the body. -/
structure RequestCtx where
  userValues : List (String × Value)
  queryArgs : List (String × String)
  headers : List (String × String)
  postBody : String

/-- The callback `makeQueryInput` passes to `QueryArgs().VisitAll` (lines
134-153), as a function of the map it updates. -/
def addQueryArg (params : List (String × Value)) (arg : String × String) :
    List (String × Value) :=
  match params.lookup arg.1 with
  | some currentValue =>
    let newValue :=
      match currentValue with
      | Value.list vs => vs ++ [Value.str arg.2]
      | _ => [currentValue, Value.str arg.2]
    mapSet params arg.1 (Value.list newValue)
  | none => mapSet params arg.1 (Value.str arg.2)

/-- The method `RestQl.makeQueryInput` (lines 132-164). -/
def makeQueryInput (ctx : RequestCtx) : QueryInput :=
  { Params := ctx.queryArgs.foldl addQueryArg []
    Headers := ctx.headers.foldl (fun headers h => mapSet headers h.1 h.2) [] }

/-- The values a key has in a query string, in their order of occurrence. -/
def valuesOf (args : List (String × String)) (key : String) : List String :=
  (args.filter fun arg => arg.1 == key).map Prod.snd

/-- What `params` is to hold for a key with the given values: nothing for a
key that does not occur, the string for a single value, the list of all the
values for two or more. -/
def paramFor : List String → Option Value
  | [] => none
  | [v] => some (Value.str v)
  | vs => some (Value.list (vs.map Value.str))

/-- The errors `eval.Evaluator.SavedQuery` returns, by their Go type; `other`
stands for an error of any other type. -/
inductive EvalError where
  | ValidationError (msg : String)
  | NotFoundError (msg : String)
  | ParserError (msg : String)
  | TimeoutError (msg : String)
  | other (msg : String)

/-- A Go `error` as the web layer sees it: one made by `errors.New`, a
`*web.Error` (an error with a status), or an error of the evaluator. -/
inductive WebError where
  | plain (msg : String)
  | withStatus (err : WebError) (status : Nat)
  | eval (err : EvalError)

def ErrInvalidNamespace : WebError := WebError.plain "invalid namespace"
def ErrInvalidQueryId : WebError := WebError.plain "invalid query id"
def ErrInvalidRevision : WebError := WebError.plain "invalid revision"
def ErrInvalidRevisionType : WebError :=
  WebError.plain "invalid revision : must be an integer"
def ErrInvalidTenant : WebError := WebError.plain "invalid tenant : no value provided"

def StatusOK : Nat := 200
def StatusNotFound : Nat := 404
def StatusUnprocessableEntity : Nat := 422
def StatusInternalServerError : Nat := 500

/-- What a handler answers: a status and either the error it reports or a
JSON value. -/
inductive ReplyBody where
  | error (err : WebError)
  | json (v : Value)

structure Reply where
  status : Nat
  body : ReplyBody

/-- Modelled from the spec: `NewRequestError(err, status)`, which `restql.go`
calls and does not define, makes the `*web.Error` of `err` with that status
(the literal `&Error{Err: err, Status: status}` of lines 41-44). -/
def NewRequestError (err : WebError) (status : Nat) : WebError :=
  WebError.withStatus err status

/-- Modelled from the spec: `RespondError(ctx, err)`, which `restql.go` calls
and does not define, answers a `*web.Error` with its status and any other
error with 500. -/
def RespondError (err : WebError) : Reply :=
  match err with
  | .withStatus e status => { status := status, body := ReplyBody.error e }
  | e => { status := StatusInternalServerError, body := ReplyBody.error e }

/-- The function `Respond(ctx, data, status)` of the web package. -/
def Respond (data : Value) (status : Nat) : Reply :=
  { status := status, body := ReplyBody.json data }

/-- The value of a decimal digit. -/
def digitValue (c : Char) : Option Nat :=
  if '0' ≤ c ∧ c ≤ '9' then some (c.toNat - '0'.toNat) else none

/-- The number a string of decimal digits denotes, if every character is
one. -/
def parseDigits (acc : Nat) : List Char → Option Nat
  | [] => some acc
  | c :: cs =>
    match digitValue c with
    | none => none
    | some d => parseDigits (acc * 10 + d) cs

/-- Go's `strconv.Atoi` on a 64-bit platform: an optional sign followed by
one or more decimal digits, denoting a value of the `int` range. -/
def Atoi (s : String) : Option Int :=
  let signed : Bool × List Char :=
    match s.toList with
    | '-' :: rest => (true, rest)
    | '+' :: rest => (false, rest)
    | cs => (false, cs)
  if signed.2.isEmpty then none
  else
    match parseDigits 0 signed.2 with
    | none => none
    | some n =>
      let v : Int := if signed.1 then -(n : Int) else (n : Int)
      if -2 ^ 63 ≤ v ∧ v < 2 ^ 63 then some v else none

structure Config where
  Tenant : String

structure QueryOptions where
  Namespace : String
  Id : String
  Revision : Int
  Tenant : String

/-- The collaborators of the handlers: the configuration, the evaluator
(`SavedQuery`, without the context argument) and the two functions of the
web package that render a result. -/
structure RestQl where
  config : Config
  SavedQuery : QueryOptions → QueryInput → Except EvalError Resources
  MakeQueryResponse : Resources → Value
  CalculateStatusCode : Resources → Nat

def paramNameToError : List (String × WebError) :=
  [("namespace", ErrInvalidNamespace), ("query", ErrInvalidQueryId),
   ("revision", ErrInvalidRevision)]

/-- The function `pathParamString` (lines 172-187). -/
def pathParamString (ctx : RequestCtx) (name : String) : Except WebError String :=
  match ctx.userValues.lookup name with
  | some (Value.str param) => .ok param
  | _ =>
    let e :=
      match paramNameToError.lookup name with
      | some e => e
      | none => WebError.plain ("path param not found : " ++ name)
    .error (WebError.withStatus e StatusUnprocessableEntity)

/-- The method `RestQl.makeQueryOptions` (lines 84-130). -/
def RestQl.makeQueryOptions (r : RestQl) (ctx : RequestCtx) : Except WebError QueryOptions :=
  match pathParamString ctx "namespace" with
  | .error err => .error err
  | .ok ns =>
    match pathParamString ctx "queryId" with
    | .error err => .error err
    | .ok queryId =>
      match pathParamString ctx "revision" with
      | .error err => .error err
      | .ok revisionStr =>
        match Atoi revisionStr with
        | none => .error ErrInvalidRevisionType
        | some revision =>
          let tenant :=
            if r.config.Tenant ≠ "" then r.config.Tenant
            else (ctx.queryArgs.lookup "tenant").getD ""
          if tenant = "" then .error ErrInvalidTenant
          else .ok { Namespace := ns, Id := queryId, Revision := revision, Tenant := tenant }

/-- The method `RestQl.RunSavedQuery` (lines 52-82). -/
def RestQl.RunSavedQuery (r : RestQl) (ctx : RequestCtx) : Reply :=
  match r.makeQueryOptions ctx with
  | .error err => RespondError (NewRequestError err StatusUnprocessableEntity)
  | .ok options =>
    let input := makeQueryInput ctx
    match r.SavedQuery options input with
    | .error err =>
      match err with
      | .ValidationError _ =>
        RespondError (NewRequestError (WebError.eval err) StatusUnprocessableEntity)
      | .NotFoundError _ => RespondError (NewRequestError (WebError.eval err) StatusNotFound)
      | .ParserError _ =>
        RespondError (NewRequestError (WebError.eval err) StatusInternalServerError)
      | .TimeoutError _ => RespondError (NewRequestError (WebError.eval err) StatusOK)
      | .other _ => RespondError (WebError.eval err)
    | .ok result => Respond (r.MakeQueryResponse result) (r.CalculateStatusCode result)

/-- A server without a configured tenant whose evaluator times out on every
query. -/
def timingOutServer : RestQl :=
  { config := { Tenant := "" }
    SavedQuery := fun _ _ => .error (EvalError.TimeoutError "query timed out")
    MakeQueryResponse := fun _ => Value.object []
    CalculateStatusCode := fun _ => StatusOK }

/-- The request `POST /run-query/ns/q/<revision>?tenant=t`. -/
def runQueryRequest (revision : String) : RequestCtx :=
  { userValues := [("namespace", Value.str "ns"), ("queryId", Value.str "q"),
      ("revision", Value.str revision)]
    queryArgs := [("tenant", "t")]
    headers := []
    postBody := "" }

/-! ## Validate-query handlers -/

/-- The function `parser.Parse`, defined outside the sources at hand: the
parsed query, or the error of the parser. -/
abbrev Parser := String → Except GoError Query

/-- What the handler of `handlers.go` leaves in `ctx.Response`: the content
type, the status code and the JSON document written by the encoder. -/
structure HandlerResponse where
  contentType : String
  statusCode : Nat
  body : Value

/-- The JSON document `encoding/json` writes for the anonymous struct
`struct { Msg string }{msg}`: the struct has no field tag, so the key is the
field name. -/
def encodeMsg (msg : String) : Value :=
  Value.object [("Msg", Value.str msg)]

/-- The handler `validateQuery` of `handlers.go` (lines 26-48). -/
def validateQuery (parse : Parser) (ctx : RequestCtx) : HandlerResponse :=
  match parse ctx.postBody with
  | .error _ =>
    { contentType := "application/json", statusCode := StatusUnprocessableEntity,
      body := encodeMsg "invalid query" }
  | .ok _ =>
    { contentType := "application/json", statusCode := StatusOK,
      body := encodeMsg "valid query" }

/-- The call of the web package a handler of `restql.go` ends with:
`Respond(ctx, data, status)`, where `none` is a nil `data`, or
`RespondError(ctx, err)`. -/
inductive WebCall where
  | Respond (data : Option Value) (status : Nat)
  | RespondError (err : WebError)

/-- The status a handler's closing call answers with. -/
def WebCall.status : WebCall → Nat
  | .Respond _ status => status
  | .RespondError err => (RestQL.RespondError err).status

/-- Go's `errors.Wrap(err, message)`: an error whose text is the message, a
colon and the text of `err`. -/
def errorsWrap (err : GoError) (message : String) : WebError :=
  WebError.plain (message ++ ": " ++ err)

/-- The method `RestQl.ValidateQuery` (lines 35-50 of `restql.go`). -/
def RestQl.ValidateQuery (_r : RestQl) (parse : Parser) (ctx : RequestCtx) : WebCall :=
  match parse ctx.postBody with
  | .error err =>
    WebCall.RespondError
      (WebError.withStatus (errorsWrap err "invalid query") StatusUnprocessableEntity)
  | .ok _ => WebCall.Respond none StatusOK

/-- The keys of a JSON object. -/
def Value.objectKeys : Value → List String
  | .object kvs => kvs.map Prod.fst
  | _ => []

/-- A parser that accepts every text as the empty query. -/
def acceptingParser : Parser := fun _ => .ok { Use := [], Statements := [] }

/-- A parser that rejects every text. -/
def rejectingParser : Parser := fun _ => .error "unexpected token"

/-- A `POST /validate-query` request with the given body. -/
def validateRequest (body : String) : RequestCtx :=
  { userValues := [], queryArgs := [], headers := [], postBody := body }

/-- A server whose configured tenant is `env` and whose evaluator answers
every query with no resources. -/
def tenantServer (env : String) : RestQl :=
  { config := { Tenant := env }
    SavedQuery := fun _ _ => .ok []
    MakeQueryResponse := fun _ => Value.object []
    CalculateStatusCode := fun _ => StatusOK }

/-- The request `POST /run-query/ns/q/1` with the given query arguments. -/
def runQueryRequestWith (queryArgs : List (String × String)) : RequestCtx :=
  { userValues := [("namespace", Value.str "ns"), ("queryId", Value.str "q"),
      ("revision", Value.str "1")]
    queryArgs := queryArgs
    headers := []
    postBody := "" }

/-! ## Sequential runner: `internal/eval/runner.go` -/

namespace Eval

/-- The request type `runner.Request` handed to the HTTP client. -/
structure Request where
  Host : String
  Query : List (String × String)
  Body : Option Value
  Headers : List (String × String)

/-- Whether a character sequence starts with the pattern. -/
def startsWith : List Char → List Char → Bool
  | _, [] => true
  | [], _ :: _ => false
  | c :: cs, p :: ps => c == p && startsWith cs ps

/-- Replacement of the first occurrence of a non-empty `old` by `new`. -/
def replaceFirst (old new : List Char) : List Char → List Char
  | [] => []
  | c :: cs =>
    if startsWith (c :: cs) old then new ++ (c :: cs).drop old.length
    else c :: replaceFirst old new cs

/-- Go's `strings.Replace(s, old, new, 1)` for a non-empty `old`. -/
def stringsReplaceOnce (s old new : String) : String :=
  String.mk (replaceFirst old.toList new.toList s.toList)

/-- Whether `old` occurs in the character sequence. -/
def occursIn (old : List Char) : List Char → Bool
  | [] => old.isEmpty
  | c :: cs => startsWith (c :: cs) old || occursIn old cs

/-- The copy loops of lines 36-44: a fresh map that holds, under each key of
`m`, the formatted value. -/
def formatEntries (sprintf : Option Value → String) (m : List (String × Value)) :
    List (String × String) :=
  m.foldl (fun out entry => mapSet out entry.1 (sprintf (some entry.2))) []

/-- The request one pass of the loop of `ExecuteQuery` builds (lines 31-51).
The formatter `sprintf` is `fmt.Sprintf("%v", ·)`, applied to a value or to
nil (`none`); a Go map read at a missing key gives the zero value. -/
def buildRequest (sprintf : Option Value → String) (mappings : List (String × String))
    (statement : Statement) : Request :=
  let resource := (mappings.lookup statement.Resource).getD ""
  let resource := stringsReplaceOnce resource ":id" (sprintf (statement.With.lookup "id"))
  { Host := resource
    Query := formatEntries sprintf statement.With
    Body := none
    Headers := formatEntries sprintf statement.Headers }

/-- The loop of `ExecuteQuery` over the statements (lines 30-60): the
responses in statement order, or nil (`none`) as soon as a request fails. -/
def executeStatements (client : Request → Except GoError Response)
    (sprintf : Option Value → String) (mappings : List (String × String)) :
    List Statement → Option (List Response)
  | [] => some []
  | statement :: rest =>
    match client (buildRequest sprintf mappings statement) with
    | .error _ => none
    | .ok response =>
      match executeStatements client sprintf mappings rest with
      | none => none
      | some responses => some (response :: responses)

/-- The sequential runner of the `eval` package: its HTTP client (`Do`,
without the context argument). -/
structure Runner where
  client : Request → Except GoError Response

/-- The method `Runner.ExecuteQuery` of `internal/eval/runner.go` (lines
27-63). -/
def Runner.ExecuteQuery (r : Runner) (sprintf : Option Value → String) (query : Query)
    (mappings : List (String × String)) : Option (List Response) :=
  executeStatements r.client sprintf mappings query.Statements

/-- A formatter that agrees with `fmt.Sprintf("%v", ·)` on nil, on integers
and on strings, the values used with it here. -/
def sprintfPrimitive : Option Value → String
  | none => "<nil>"
  | some (Value.int n) => toString n
  | some (Value.str s) => s
  | some _ => ""

/-- A client that answers every request with the host and the query
parameters it was given. -/
def echoClient : Request → Except GoError Response :=
  fun req =>
    .ok (Value.object
      [("host", Value.str req.Host),
       ("query", Value.object (req.Query.map fun kv => (kv.1, Value.str kv.2)))])

/-- The statement `from hero with id = 7, name = "x"`. -/
def heroByIdAndName : Statement :=
  { Statement.named "hero" with With := [("id", Value.int 7), ("name", Value.str "x")] }

/-- A mapping whose template has the tokens `:id` and `:name`. -/
def heroMappings : List (String × String) :=
  [("hero", "http://h/hero/:id/:name")]

end Eval

/-! ## Persistence: `internal/platform/persistence/database/mongo.go` -/

namespace Database

/-- How a Go function ends: with a value, with an error, or in a run-time
panic. -/
inductive GoResult (α : Type) where
  | ok (value : α)
  | error (err : GoError)
  | panic (msg : String)

structure revision where
  Text : String

structure query where
  Name : String
  Namespace : String
  Size : Int
  Revisions : List revision

structure tenant where
  Mappings : List (String × String)

/-- The Go expression `revisions[i]` for an `int` index: a run-time panic
when the index is out of range. -/
def indexRevisions (revisions : List revision) (i : Int) : GoResult revision :=
  if 0 ≤ i ∧ i < revisions.length then
    match revisions.get? i.toNat with
    | some r => GoResult.ok r
    | none => GoResult.panic "index out of range"
  else GoResult.panic "index out of range"

/-- The method `mongoDatabase.FindQuery` (lines 62-81); `found` is what
`FindOne(...).Decode(&q)` gives for the namespace and the name. -/
def FindQuery (found : Except GoError query) (ns name : String) (revisionNumber : Int) :
    GoResult String :=
  match found with
  | .error err => GoResult.error err
  | .ok q =>
    if q.Size < revisionNumber ∨ revisionNumber < 0 then
      GoResult.error
        ("invalid revision for query " ++ ns ++ "/" ++ name ++ " : major revision " ++
          toString q.Size ++ " : given revision " ++ toString revisionNumber)
    else
      match indexRevisions q.Revisions (revisionNumber - 1) with
      | .ok r => GoResult.ok r.Text
      | .error err => GoResult.error err
      | .panic msg => GoResult.panic msg

/-- The loop of `FindMappingsForTenant` (lines 47-57) over the entries still
to visit, with the slice `result` and the index `i` of the next free place. -/
def fillMappings {Mapping : Type} (NewMapping : String → String → Except GoError Mapping) :
    List (String × String) → List Mapping → Nat → List Mapping
  | [], result, _ => result
  | entry :: rest, result, i =>
    match NewMapping entry.1 entry.2 with
    | .error _ => fillMappings NewMapping rest result i
    | .ok mapping => fillMappings NewMapping rest (result.set i mapping) (i + 1)

/-- The method `mongoDatabase.FindMappingsForTenant` (lines 35-60). The type
`domain.Mapping`, its zero value and the constructor `domain.NewMapping` are
defined outside the sources at hand and are parameters; `found` is what
`FindOne(...).Decode(&t)` gives for the tenant. -/
def FindMappingsForTenant {Mapping : Type} (zero : Mapping)
    (NewMapping : String → String → Except GoError Mapping) (found : Except GoError tenant) :
    Except GoError (List Mapping) :=
  match found with
  | .error err => .error err
  | .ok t =>
    .ok (fillMappings NewMapping t.Mappings (List.replicate t.Mappings.length zero) 0)

/-- The mappings `NewMapping` builds from the entries it accepts, in order. -/
def builtMappings {Mapping : Type} (NewMapping : String → String → Except GoError Mapping) :
    List (String × String) → List Mapping
  | [] => []
  | entry :: rest =>
    match NewMapping entry.1 entry.2 with
    | .error _ => builtMappings NewMapping rest
    | .ok mapping => mapping :: builtMappings NewMapping rest

/-- A stored query with one revision. -/
def storedQuery : query :=
  { Name := "q", Namespace := "ns", Size := 1, Revisions := [{ Text := "from hero" }] }

/-- A stand-in for `domain.NewMapping` on pairs of a resource name and a URL:
it rejects the URLs that do not start with `http`. -/
def sampleNewMapping (resourceName url : String) : Except GoError (String × String) :=
  if Eval.startsWith url.toList "http".toList then .ok (resourceName, url)
  else .error "invalid mapping"

/-- A tenant document whose first mapping is rejected by `sampleNewMapping`. -/
def storedTenant : tenant :=
  { Mappings := [("broken", "ftp//nowhere"), ("hero", "http://h/hero")] }

end Database

/-! ## Theorems -/

/-! ### Scheduler -/

theorem append_eq_split {α : Type} {l1 l2 pre post : List α} {x : α}
    (h : l1 ++ l2 = pre ++ x :: post) :
    (∃ post', l1 = pre ++ x :: post') ∨
      (∃ pre', pre = l1 ++ pre' ∧ l2 = pre' ++ x :: post) := by
  rcases List.append_eq_append_iff.mp h with ⟨a, ha, hb⟩ | ⟨c, hc, hd⟩
  · exact Or.inr ⟨a, ha, hb⟩
  · cases c with
    | nil =>
      refine Or.inr ⟨[], ?_, ?_⟩
      · simpa using hc.symm
      · simpa using hd.symm
    | cons y c =>
      simp only [List.cons_append, List.cons.injEq] at hd
      obtain ⟨rfl, _⟩ := hd
      exact Or.inl ⟨c, hc⟩

theorem markEntry_nil (e : Entry) : markEntry [] e = e := by
  simp [markEntry]

theorem markEntry_cons (x : ResourceId × Resource) (rest : Resources) (e : Entry) :
    markEntry rest (e.setAsRequest x.1) = markEntry (x :: rest) e := by
  obtain ⟨i, res, status, resp⟩ := e
  simp only [markEntry, Entry.setAsRequest, List.any_cons]
  split_ifs <;> simp_all

theorem markRequested_eq_map (available : Resources) :
    ∀ st : State, markRequested st available = st.map (markEntry available) := by
  induction available with
  | nil =>
    intro st
    have hid : markEntry [] = id := funext markEntry_nil
    simp [markRequested, hid]
  | cons x rest ih =>
    intro st
    have := ih (st.SetAsRequest x.1)
    simp only [markRequested, List.foldl_cons] at this ⊢
    rw [this]
    simp only [State.SetAsRequest, List.map_map]
    apply List.map_congr_left
    intro e _
    exact markEntry_cons x rest e

theorem markEntry_id (a : Resources) (e : Entry) : (markEntry a e).id = e.id := by
  unfold markEntry; split <;> rfl

theorem markEntry_resource (a : Resources) (e : Entry) :
    (markEntry a e).resource = e.resource := by
  unfold markEntry; split <;> rfl

theorem markEntry_done (a : Resources) (e : Entry) :
    ((markEntry a e).status == Lifecycle.done) = (e.status == Lifecycle.done) := by
  obtain ⟨i, res, status, resp⟩ := e
  simp only [markEntry]
  split_ifs <;> simp_all

theorem resources_markRequested (st : State) (a : Resources) :
    (markRequested st a).resources = st.resources := by
  rw [markRequested_eq_map]
  simp only [State.resources, List.map_map]
  apply List.map_congr_left
  intro e _
  simp [markEntry_id, markEntry_resource]

theorem isDone_markRequested (st : State) (a : Resources) (s : ResourceId) :
    (markRequested st a).isDone s = st.isDone s := by
  rw [markRequested_eq_map]
  simp only [State.isDone, List.any_map]
  congr 1
  funext e
  simp only [Function.comp, markEntry_id, markEntry_done]

theorem resources_UpdateDone (st : State) (id : ResourceId) (r : Response) :
    (st.UpdateDone id r).resources = st.resources := by
  simp only [State.resources, State.UpdateDone, List.map_map]
  apply List.map_congr_left
  intro e _
  simp only [Function.comp, Entry.updateDone]
  split <;> rfl

theorem updateDone_done {id s : ResourceId} {r : Response} {e : Entry}
    (hid : (e.updateDone id r).id = s) (hst : (e.updateDone id r).status = .done) :
    (e.id = s ∧ e.status = .done) ∨ s = id := by
  unfold Entry.updateDone at hid hst
  split at hid
  · rename_i hc
    simp only [Bool.and_eq_true, beq_iff_eq] at hc
    exact Or.inr (hid ▸ hc.1)
  · rename_i hc
    rw [if_neg hc] at hst
    exact Or.inl ⟨hid, hst⟩

theorem isDone_UpdateDone {st : State} {id s : ResourceId} {r : Response}
    (h : (st.UpdateDone id r).isDone s = true) : st.isDone s = true ∨ s = id := by
  simp only [State.isDone, State.UpdateDone, List.any_map, List.any_eq_true, Function.comp,
    Bool.and_eq_true, beq_iff_eq] at h ⊢
  obtain ⟨e, he, hid, hst⟩ := h
  rcases updateDone_done hid hst with ⟨h1, h2⟩ | h3
  · exact Or.inl ⟨e, he, h1, h2⟩
  · exact Or.inr h3

theorem mem_Available {st : State} {x : ResourceId × Resource} (h : x ∈ st.Available) :
    x ∈ st.resources ∧ ∀ s ∈ x.2.chainDeps, st.isDone s = true := by
  simp only [State.Available, List.mem_map, List.mem_filter, Bool.and_eq_true, beq_iff_eq,
    List.all_eq_true] at h
  obtain ⟨e, ⟨he, _, hdeps⟩, rfl⟩ := h
  exact ⟨List.mem_map.mpr ⟨e, he, rfl⟩, hdeps⟩

theorem isDone_NewState (rs : Resources) (s : ResourceId) : (NewState rs).isDone s = false := by
  simp only [State.isDone, NewState, List.any_map, List.any_eq_false, Function.comp]
  intro x hx
  obtain ⟨y, _, rfl⟩ := List.mem_map.mp hx
  simp

theorem resources_NewState (rs : Resources) : (NewState rs).resources = rs := by
  simp only [State.resources, NewState, List.map_map]
  exact List.map_id _



theorem emitted_available {p : Pipeline} (hp : p.KeepsIds) {st : State} {req : request}
    (h : req ∈ emitted p st) :
    ∃ res, (req.ResourceIdentifier, res) ∈ st.Available := by
  simp only [emitted, List.mem_map] at h
  obtain ⟨x, hx, rfl⟩ := h
  have := hp _ _ x hx
  simp only [List.mem_map] at this
  obtain ⟨y, hy, hxy⟩ := this
  exact ⟨y.2, by rw [← hxy]; exact hy⟩

theorem mem_iterationEvents_send {p : Pipeline} {st : State} {pre post : List SchedEvent}
    {req : request} (h : iterationEvents p st = pre ++ SchedEvent.sendRequest req :: post) :
    req ∈ emitted p st ∧
      ∀ x ∈ st.Available, SchedEvent.setAsRequest x.1 ∈ pre := by
  unfold iterationEvents at h
  rcases append_eq_split h with ⟨post', h1⟩ | ⟨pre', h1, h2⟩
  · have : SchedEvent.sendRequest req ∈
        st.Available.map (fun x => SchedEvent.setAsRequest x.1) := by
      rw [h1]; simp
    simp at this
  · constructor
    · have : SchedEvent.sendRequest req ∈ (emitted p st).map SchedEvent.sendRequest := by
        rw [h2]; simp
      simpa using this
    · intro x hx
      rw [h1]
      exact List.mem_append_left _ (List.mem_map.mpr ⟨x, hx, rfl⟩)

theorem iteration_send {p : Pipeline} (hp : p.KeepsIds) {st : State}
    {pre post : List SchedEvent} {req : request}
    (h : iterationEvents p st = pre ++ SchedEvent.sendRequest req :: post) :
    SchedEvent.setAsRequest req.ResourceIdentifier ∈ pre ∧
      ∃ res, (req.ResourceIdentifier, res) ∈ st.resources ∧
        ∀ s ∈ res.chainDeps, st.isDone s = true := by
  obtain ⟨hreq, hset⟩ := mem_iterationEvents_send h
  obtain ⟨res, hres⟩ := emitted_available hp hreq
  exact ⟨hset _ hres, res, (mem_Available hres).1, (mem_Available hres).2⟩

theorem stateWorker_Run_sendRequest (p : Pipeline) (hp : p.KeepsIds) (feed : List Incoming) :
    ∀ (st : State) (pre post : List SchedEvent) (req : request),
      stateWorker.Run p st feed = pre ++ SchedEvent.sendRequest req :: post →
      SchedEvent.setAsRequest req.ResourceIdentifier ∈ pre ∧
      ∃ res, (req.ResourceIdentifier, res) ∈ st.resources ∧
        ∀ s ∈ res.chainDeps,
          st.isDone s = true ∨ ∃ resp, SchedEvent.updateDone s resp ∈ pre := by
  have hout : ∀ (st : State) (pre post : List SchedEvent) (req : request),
      [SchedEvent.output st.Done] ≠ pre ++ SchedEvent.sendRequest req :: post := by
    intro st pre post req h
    have : SchedEvent.sendRequest req ∈ [SchedEvent.output st.Done] := by rw [h]; simp
    simp at this
  have hiter : ∀ (st : State) (pre post : List SchedEvent) (req : request),
      iterationEvents p st = pre ++ SchedEvent.sendRequest req :: post →
      SchedEvent.setAsRequest req.ResourceIdentifier ∈ pre ∧
      ∃ res, (req.ResourceIdentifier, res) ∈ st.resources ∧
        ∀ s ∈ res.chainDeps,
          st.isDone s = true ∨ ∃ resp, SchedEvent.updateDone s resp ∈ pre := by
    intro st pre post req h
    obtain ⟨h1, res, h2, h3⟩ := iteration_send hp h
    exact ⟨h1, res, h2, fun s hs => Or.inl (h3 s hs)⟩
  induction feed with
  | nil =>
    intro st pre post req h
    rw [stateWorker.Run] at h
    split at h
    · exact absurd h (hout _ _ _ _)
    · exact hiter _ _ _ _ h
  | cons i rest ih =>
    intro st pre post req h
    cases i with
    | ctxDone =>
      rw [stateWorker.Run] at h
      split at h
      · exact absurd h (hout _ _ _ _)
      · exact hiter _ _ _ _ h
    | result r =>
      rw [stateWorker.Run] at h
      split at h
      · exact absurd h (hout _ _ _ _)
      · rcases append_eq_split h with ⟨post', h1⟩ | ⟨pre', h1, h2⟩
        · exact hiter _ _ _ _ h1
        · cases pre' with
          | nil => simp at h2
          | cons y pre2 =>
            simp only [List.cons_append, List.cons.injEq] at h2
            obtain ⟨hy, h2⟩ := h2
            obtain ⟨hset, res, hres, hdeps⟩ := ih _ _ _ _ h2
            refine ⟨?_, res, ?_, ?_⟩
            · rw [h1]
              exact List.mem_append_right _ (List.mem_cons_of_mem _ hset)
            · rw [resources_UpdateDone, resources_markRequested] at hres
              exact hres
            · intro s hs
              rcases hdeps s hs with hd | ⟨resp, hresp⟩
              · rcases isDone_UpdateDone hd with hd' | rfl
                · rw [isDone_markRequested] at hd'
                  exact Or.inl hd'
                · refine Or.inr ⟨r.Response, ?_⟩
                  rw [h1, ← hy]
                  simp
              · refine Or.inr ⟨resp, ?_⟩
                rw [h1]
                exact List.mem_append_right _ (List.mem_cons_of_mem _ hresp)

theorem markRequested_requested {st : State} {a : Resources} {e : Entry} (he : e ∈ st)
    (hp : e.status = .pending) (ha : e.id ∈ a.map Prod.fst) :
    { e with status := Lifecycle.requested } ∈ markRequested st a := by
  rw [markRequested_eq_map]
  refine List.mem_map.mpr ⟨e, he, ?_⟩
  have hany : (a.any fun x => x.1 == e.id) = true := by
    obtain ⟨x, hx, hxe⟩ := List.mem_map.mp ha
    exact List.any_eq_true.mpr ⟨x, hx, by simp [hxe]⟩
  simp [markEntry, hp, hany]

theorem idPipeline_keepsIds : idPipeline.KeepsIds := by
  intro available done x hx
  exact List.mem_map.mpr ⟨x, hx, rfl⟩

/-- C1: with unique resource identifiers, whenever the scheduler loop emits a
request for a resource, `UpdateDone` has already been applied for every chain
dependency of that resource and the resource has already been set as
requested; and in every iteration each emitted request is for a resource
that `Available()` returned in that iteration, with all its chain
dependencies done, pending before and requested after lines 166-168. -/
theorem scheduler_emits_after_dependencies_done (p : Pipeline) (hp : p.KeepsIds)
    (rs : Resources) (hrs : (rs.map Prod.fst).Nodup) (feed : List Incoming)
    (pre post : List SchedEvent) (req : request)
    (h : stateWorker.Run p (NewState rs) feed = pre ++ SchedEvent.sendRequest req :: post) :
    (∀ r ∈ rs, r.1 = req.ResourceIdentifier →
        ∀ s ∈ r.2.chainDeps, ∃ resp, SchedEvent.updateDone s resp ∈ pre) ∧
      SchedEvent.setAsRequest req.ResourceIdentifier ∈ pre ∧
      ∀ (st : State), ∀ q ∈ emitted p st,
        ∃ e ∈ st, e.id = q.ResourceIdentifier ∧ e.status = Lifecycle.pending ∧
          (e.id, e.resource) ∈ st.Available ∧
          (∀ s ∈ e.resource.chainDeps, st.isDone s = true) ∧
          { e with status := Lifecycle.requested } ∈ markRequested st st.Available := by
  obtain ⟨hset, res, hres, hdeps⟩ := stateWorker_Run_sendRequest p hp feed _ _ _ _ h
  rw [resources_NewState] at hres
  refine ⟨?_, hset, ?_⟩
  · intro r hr hid s hs
    have hr' : r = (req.ResourceIdentifier, res) :=
      List.inj_on_of_nodup_map hrs hr hres hid
    subst hr'
    rcases hdeps s hs with hd | hd
    · rw [isDone_NewState] at hd
      exact absurd hd (by simp)
    · exact hd
  · intro st q hq
    obtain ⟨res', hres'⟩ := emitted_available hp hq
    have hmem : q.ResourceIdentifier ∈ st.Available.map Prod.fst :=
      List.mem_map.mpr ⟨_, hres', rfl⟩
    have hdeps' := (mem_Available hres').2
    have hres2 := hres'
    simp only [State.Available, List.mem_map, List.mem_filter, Bool.and_eq_true,
      beq_iff_eq] at hres2
    obtain ⟨e, ⟨he, hpend, _⟩, heq⟩ := hres2
    have hid : e.id = q.ResourceIdentifier := congrArg Prod.fst heq
    have hr : e.resource = res' := congrArg Prod.snd heq
    refine ⟨e, he, hid, hpend, ?_, ?_, markRequested_requested he hpend (hid ▸ hmem)⟩
    · rw [heq]
      exact hres'
    · rw [hr]
      exact hdeps'

theorem scheduler_emits_after_dependencies_done_witness :
    ∃ resp, SchedEvent.updateDone "hero" resp ∈
      [SchedEvent.setAsRequest "hero",
       SchedEvent.sendRequest
         { ResourceIdentifier := "hero", Statement := Resource.stmt heroStatement },
       SchedEvent.updateDone "hero" (Value.int 7),
       SchedEvent.setAsRequest "sidekick"] :=
  (scheduler_emits_after_dependencies_done idPipeline idPipeline_keepsIds heroSidekick
    (by decide) heroSidekickFeed
    [SchedEvent.setAsRequest "hero",
     SchedEvent.sendRequest
       { ResourceIdentifier := "hero", Statement := Resource.stmt heroStatement },
     SchedEvent.updateDone "hero" (Value.int 7),
     SchedEvent.setAsRequest "sidekick"]
    [SchedEvent.updateDone "sidekick" (Value.int 1),
     SchedEvent.output
       [("hero", Resource.done (Value.int 7)), ("sidekick", Resource.done (Value.int 1))]]
    { ResourceIdentifier := "sidekick", Statement := Resource.stmt sidekickStatement }
    rfl).1 ("sidekick", Resource.stmt sidekickStatement) (by simp [heroSidekick]) rfl
    "hero" (List.mem_singleton.mpr rfl)

/-! ### Dispatcher -/

theorem requestWorker.Run_append (ex : Executor) (pre : List DispatchInput)
    (hpre : ∀ i ∈ pre, i ≠ DispatchInput.ctxDone) (rest : List DispatchInput) :
    requestWorker.Run ex (pre ++ rest) =
      requestWorker.Run ex pre ++ requestWorker.Run ex rest ∧
      (requestWorker.Run ex pre).length = pre.length := by
  induction pre with
  | nil => simp [requestWorker.Run]
  | cons i pre ih =>
    have ih' := ih (fun j hj => hpre j (List.mem_cons_of_mem _ hj))
    cases i with
    | ctxDone => exact absurd rfl (hpre _ (List.mem_cons_self _ _))
    | request req a b =>
      refine ⟨?_, ?_⟩
      · show requestWorker.Run ex (DispatchInput.request req a b :: (pre ++ rest)) = _
        rw [requestWorker.Run, ih'.1, requestWorker.Run, List.cons_append]
      · rw [requestWorker.Run, List.length_cons, List.length_cons, ih'.2]

/-- C2 (amended): for every request the dispatcher consumes
before its context is done and whose transport call returns an error, with
or without `ignoreErrors`, the request's goroutine offers that error on
`errorCh` (it is sent unless the context is done first) and then offers the
response the executor returned on `resultCh`; the dispatcher builds no
envelope of its own and never looks at `ignoreErrors`. -/
theorem dispatcher_forwards_every_transport_error (ex : Executor)
    (pre post : List DispatchInput) (req : request) (selErr selRes : SendOutcome)
    (response : Response) (err : GoError)
    (hpre : ∀ i ∈ pre, i ≠ DispatchInput.ctxDone)
    (hcall : transportCall ex req.Statement = some (response, some err)) :
    (requestWorker.Run ex (pre ++ DispatchInput.request req selErr selRes :: post)).get?
        pre.length =
      some ((match selErr with
          | .sent => [DispatchEvent.errorCh err]
          | .ctxDone => []) ++
        (match selRes with
          | .sent => [DispatchEvent.resultCh
              { ResourceIdentifier := req.ResourceIdentifier, Response := response }]
          | .ctxDone => [])) := by
  obtain ⟨happ, hlen⟩ := requestWorker.Run_append ex pre hpre
    (DispatchInput.request req selErr selRes :: post)
  rw [happ, ← hlen, List.get?_eq_getElem?, List.getElem?_append_right (le_refl _)]
  simp only [Nat.sub_self, requestWorker.Run, handleRequest, hcall, forwardError, writeResult]
  cases selErr <;> cases selRes <;> simp

theorem dispatcher_forwards_every_transport_error_witness :
    (requestWorker.Run failingExecutor
        ([] ++ DispatchInput.request
          { ResourceIdentifier := "hero", Statement := Resource.stmt heroIgnoreErrors }
          SendOutcome.sent SendOutcome.sent :: [])).get? 0 =
      some ([DispatchEvent.errorCh "boom"] ++
        [DispatchEvent.resultCh { ResourceIdentifier := "hero", Response := Value.object [] }]) :=
  dispatcher_forwards_every_transport_error failingExecutor [] []
    { ResourceIdentifier := "hero", Statement := Resource.stmt heroIgnoreErrors }
    SendOutcome.sent SendOutcome.sent (Value.object []) "boom"
    (fun _ h => absurd h (List.not_mem_nil _)) rfl

/-- C2 fails as stated: a statement with `ignoreErrors` whose transport call
fails still has its error sent on `errorCh`. -/
theorem dispatcher_ignoreErrors_still_sends_error :
    ¬ ∀ (ex : Executor) (req : request) (selErr selRes : SendOutcome)
        (response : Response) (err : GoError),
        req.Statement.ignoreErrors = true →
        transportCall ex req.Statement = some (response, some err) →
        ∀ ev ∈ (requestWorker.Run ex [DispatchInput.request req selErr selRes]).flatten,
          ∀ e, ev ≠ DispatchEvent.errorCh e := by
  intro h
  have := h failingExecutor
    { ResourceIdentifier := "hero", Statement := Resource.stmt heroIgnoreErrors }
    SendOutcome.sent SendOutcome.sent (Value.object []) "boom" rfl rfl
    (DispatchEvent.errorCh "boom") (by simp [requestWorker.Run, handleRequest, transportCall,
      failingExecutor, forwardError, writeResult]) "boom"
  exact this rfl

/-! ### Coordinator -/

/-- C3 (amended): when the context's `Done` fires before an output
or an error is received, `ExecuteQuery` returns `ErrQueryTimedOut` together
with nil resources; no snapshot of the state is returned. -/
theorem executeQuery_timeout_returns_nil (r : Runner) (i : Initializers) (p : Pipeline)
    (ctx : Context) (now : Int) (query : Query) (queryCtx : QueryContext) (rs : Resources)
    (hinit : r.initializeResources i p query queryCtx = .ok rs) :
    (r.ExecuteQuery i p ctx now query queryCtx Fired.ctxDone).resources = none ∧
      (r.ExecuteQuery i p ctx now query queryCtx Fired.ctxDone).err =
        some ErrQueryTimedOut := by
  simp [Runner.ExecuteQuery, hinit]

theorem executeQuery_timeout_returns_nil_witness :
    (oneSecondRunner.ExecuteQuery plainInitializers idPipeline { deadline := none } 0
        heroSidekickQuery emptyQueryContext Fired.ctxDone).resources = none ∧
      (oneSecondRunner.ExecuteQuery plainInitializers idPipeline { deadline := none } 0
        heroSidekickQuery emptyQueryContext Fired.ctxDone).err = some ErrQueryTimedOut :=
  executeQuery_timeout_returns_nil oneSecondRunner plainInitializers idPipeline
    { deadline := none } 0 heroSidekickQuery emptyQueryContext heroSidekick rfl

/-- C3 fails as stated: with `hero` completed and `sidekick` pending when the
context is done, the snapshot `state.Done()` holds the response of `hero`,
and `ExecuteQuery` returns nil resources instead of it. -/
theorem executeQuery_timeout_drops_snapshot :
    oneSecondRunner.initializeResources plainInitializers idPipeline heroSidekickQuery
        emptyQueryContext = .ok heroSidekick ∧
      heroDoneState.Done =
        [("hero", Resource.done (Value.int 7)), ("sidekick", Resource.placeholder)] ∧
      (oneSecondRunner.ExecuteQuery plainInitializers idPipeline { deadline := none } 0
        heroSidekickQuery emptyQueryContext Fired.ctxDone).resources = none ∧
      (oneSecondRunner.ExecuteQuery plainInitializers idPipeline { deadline := none } 0
        heroSidekickQuery emptyQueryContext Fired.ctxDone).resources ≠ some heroDoneState.Done :=
  ⟨rfl, rfl, rfl, fun h => Option.noConfusion h⟩

/-! ### Query timeout -/

theorem wrapInt64_of_inRange {x : Int} (hlo : -2 ^ 63 ≤ x) (hhi : x < 2 ^ 63) :
    wrapInt64 x = x := by
  unfold wrapInt64
  rw [Int.emod_eq_of_lt (by omega) (by omega)]
  omega

/-- C4 (amended): for every query whose `use` clause holds an integer
timeout `n` such that `n` milliseconds fit a `time.Duration`,
`parseQueryTimeout` returns (`n` milliseconds, true) and `ExecuteQuery` runs
the query under `context.WithTimeout(ctx, n ms)`: the deadline of that
context is `n` milliseconds after the call, or the caller's deadline when
that one is sooner. -/
theorem query_timeout_sets_deadline (r : Runner) (i : Initializers) (p : Pipeline)
    (ctx : Context) (now : Int) (query : Query) (queryCtx : QueryContext) (fired : Fired)
    (n : Int) (huse : query.Use.lookup "timeout" = some (Value.int n))
    (hlo : -2 ^ 63 ≤ Millisecond * n) (hhi : Millisecond * n < 2 ^ 63) :
    r.parseQueryTimeout query = (Millisecond * n, true) ∧
      (r.ExecuteQuery i p ctx now query queryCtx fired).ctx =
        ctx.WithTimeout now (Millisecond * n) ∧
      (r.ExecuteQuery i p ctx now query queryCtx fired).ctx.deadline =
        some (match ctx.deadline with
          | none => now + Millisecond * n
          | some cur => min cur (now + Millisecond * n)) := by
  have hparse : r.parseQueryTimeout query = (Millisecond * n, true) := by
    simp only [Runner.parseQueryTimeout, huse, wrapInt64_of_inRange hlo hhi]
  have hctx : (r.ExecuteQuery i p ctx now query queryCtx fired).ctx =
      ctx.WithTimeout now (Millisecond * n) := by
    simp only [Runner.ExecuteQuery, Runner.queryContext, hparse]
    cases r.initializeResources i p query queryCtx with
    | error e => rfl
    | ok rs => cases fired <;> rfl
  refine ⟨hparse, hctx, ?_⟩
  rw [hctx]
  unfold Context.WithTimeout Context.WithCancel
  cases hd : ctx.deadline with
  | none => rfl
  | some cur =>
    simp only
    split
    · rename_i hlt
      rw [hd, min_eq_left (le_of_lt hlt)]
    · rename_i hlt
      rw [min_eq_right (not_lt.mp hlt)]

theorem query_timeout_sets_deadline_witness :
    oneSecondRunner.parseQueryTimeout timeout50Query = (Millisecond * 50, true) ∧
      (oneSecondRunner.ExecuteQuery plainInitializers idPipeline { deadline := none } 0
        timeout50Query emptyQueryContext Fired.ctxDone).ctx =
        Context.WithTimeout { deadline := none } 0 (Millisecond * 50) ∧
      (oneSecondRunner.ExecuteQuery plainInitializers idPipeline { deadline := none } 0
        timeout50Query emptyQueryContext Fired.ctxDone).ctx.deadline =
        some (0 + Millisecond * 50) :=
  query_timeout_sets_deadline oneSecondRunner plainInitializers idPipeline
    { deadline := none } 0 timeout50Query emptyQueryContext Fired.ctxDone 50 rfl
    (by decide) (by decide)

/-- C4 fails as stated: for the timeout `9223372036854775807`, a value of
Go's `int`, the product with `time.Millisecond` wraps and
`parseQueryTimeout` returns minus one millisecond. -/
theorem query_timeout_wraps_for_huge_timeout :
    ¬ ∀ (r : Runner) (query : Query) (n : Int), -2 ^ 63 ≤ n → n < 2 ^ 63 →
        query.Use.lookup "timeout" = some (Value.int n) →
        r.parseQueryTimeout query = (Millisecond * n, true) := by
  intro h
  have h1 := h oneSecondRunner hugeTimeoutQuery 9223372036854775807 (by decide) (by decide) rfl
  have h2 : oneSecondRunner.parseQueryTimeout hugeTimeoutQuery = (-1000000, true) := by
    decide
  rw [h2] at h1
  exact absurd (congrArg Prod.fst h1) (by decide)

/-- C5, evaluated at a failing input: for a query without `use timeout`, a
runner whose global query timeout is one second and a caller context with no
deadline, `parseQueryTimeout` hands back the global timeout with `false`,
and the context the query runs under has no deadline. -/
theorem global_timeout_not_applied :
    oneSecondRunner.parseQueryTimeout heroSidekickQuery = (1000 * Millisecond, false) ∧
      (oneSecondRunner.ExecuteQuery plainInitializers idPipeline { deadline := none } 0
        heroSidekickQuery emptyQueryContext Fired.ctxDone).ctx.deadline = none ∧
      (oneSecondRunner.ExecuteQuery plainInitializers idPipeline { deadline := none } 0
        heroSidekickQuery emptyQueryContext Fired.ctxDone).ctx.deadline ≠
        some (0 + oneSecondRunner.globalQueryTimeout) :=
  ⟨rfl, rfl, fun h => Option.noConfusion h⟩

/-! ### Modifiers -/

theorem getElem?_ApplyModifiers (rs : Resources) (m : Modifiers) (idx : Nat)
    (id : ResourceId) (r : Resource) (h : rs[idx]? = some (id, r)) :
    (ApplyModifiers rs m)[idx]? = some (id, r) ∨
      (ApplyModifiers rs m)[idx]? =
        some (id, r.mapStatements (applyModifiersToStatement m)) := by
  unfold ApplyModifiers
  split
  · exact Or.inl h
  · right
    rw [List.getElem?_map, h]
    rfl

theorem statements_mapStatements (f : Statement → Statement) (r : Resource) :
    (r.mapStatements f).statements = r.statements.map f := by
  cases r <;> rfl

theorem forall₂_map_self {α : Type} (R : α → α → Prop) (f : α → α) (l : List α)
    (h : ∀ a, R a (f a)) : List.Forall₂ R l (l.map f) := by
  induction l with
  | nil => exact List.Forall₂.nil
  | cons a l ih => exact List.Forall₂.cons (h a) ih

theorem forall₂_self {α : Type} (R : α → α → Prop) (l : List α)
    (h : ∀ a, R a a) : List.Forall₂ R l l := by
  induction l with
  | nil => exact List.Forall₂.nil
  | cons a l ih => exact List.Forall₂.cons (h a) ih

/-- C6: for every modifiers mapping and every resources mapping,
`ApplyModifiers` keeps each slot under its identifier and, statement by
statement, keeps a `CacheControl.MaxAge` that is set and a
`CacheControl.SMaxAge` that is set, whatever the modifiers (`max-age`,
`cache-control`, `s-max-age`) hold. -/
theorem applyModifiers_keeps_set_cache_control (m : Modifiers) (rs : Resources) (idx : Nat)
    (id : ResourceId) (r : Resource) (h : rs[idx]? = some (id, r)) :
    ∃ r', (ApplyModifiers rs m)[idx]? = some (id, r') ∧
      List.Forall₂
        (fun s s' =>
          (∀ v, s.CacheControl.MaxAge = some v → s'.CacheControl.MaxAge = some v) ∧
          (∀ v, s.CacheControl.SMaxAge = some v → s'.CacheControl.SMaxAge = some v))
        r.statements r'.statements := by
  rcases getElem?_ApplyModifiers rs m idx id r h with h1 | h1
  · exact ⟨r, h1, forall₂_self _ _ fun s => ⟨fun _ hv => hv, fun _ hv => hv⟩⟩
  · refine ⟨_, h1, ?_⟩
    rw [statements_mapStatements]
    apply forall₂_map_self
    intro s
    constructor
    · intro v hv
      simp [applyModifiersToStatement, hv]
    · intro v hv
      simp [applyModifiersToStatement, hv]

theorem applyModifiers_keeps_set_cache_control_witness :
    ∃ r', (ApplyModifiers [("hero", Resource.stmt heroMaxAge400)]
        [("max-age", Value.int 600), ("s-max-age", Value.int 600)])[0]? = some ("hero", r') ∧
      List.Forall₂
        (fun s s' =>
          (∀ v, s.CacheControl.MaxAge = some v → s'.CacheControl.MaxAge = some v) ∧
          (∀ v, s.CacheControl.SMaxAge = some v → s'.CacheControl.SMaxAge = some v))
        (Resource.stmt heroMaxAge400).statements r'.statements :=
  applyModifiers_keeps_set_cache_control
    [("max-age", Value.int 600), ("s-max-age", Value.int 600)]
    [("hero", Resource.stmt heroMaxAge400)] 0 "hero" (Resource.stmt heroMaxAge400) rfl

/-- The rows of `TestApplyModifiers` that fill an unset field: under
`max-age 600`, `cache-control 600` and `s-max-age 600` the statement
`Statement{Resource: "hero"}` comes back with that field set and nothing
else changed. -/
theorem applyModifiers_test_rows :
    ApplyModifiers [("hero", Resource.stmt heroStatement)] [("max-age", Value.int 600)] =
        [("hero", Resource.stmt
          { heroStatement with
            CacheControl := { MaxAge := some (Value.int 600), SMaxAge := none } })] ∧
      ApplyModifiers [("hero", Resource.stmt heroStatement)]
          [("cache-control", Value.int 600)] =
        [("hero", Resource.stmt
          { heroStatement with
            CacheControl := { MaxAge := some (Value.int 600), SMaxAge := none } })] ∧
      ApplyModifiers [("hero", Resource.stmt heroStatement)] [("s-max-age", Value.int 600)] =
        [("hero", Resource.stmt
          { heroStatement with
            CacheControl := { MaxAge := none, SMaxAge := some (Value.int 600) } })] :=
  ⟨rfl, rfl, rfl⟩

/-! ### Query input -/

theorem lookup_mapSet_self {β : Type} (m : List (String × β)) (key : String) (value : β) :
    (mapSet m key value).lookup key = some value := by
  induction m with
  | nil => simp [mapSet, List.lookup]
  | cons x m ih =>
    obtain ⟨k, v⟩ := x
    by_cases hk : k = key
    · simp [mapSet, hk, List.lookup]
    · have hne : (key == k) = false := by
        simp only [beq_eq_false_iff_ne]
        exact fun h => hk h.symm
      simp [mapSet, hk, List.lookup, hne, ih]

theorem lookup_mapSet_ne {β : Type} (m : List (String × β)) (key other : String) (value : β)
    (h : other ≠ key) : (mapSet m key value).lookup other = m.lookup other := by
  induction m with
  | nil =>
    have hne : (other == key) = false := by simpa using h
    simp [mapSet, List.lookup, hne]
  | cons x m ih =>
    obtain ⟨k, v⟩ := x
    by_cases hk : k = key
    · subst hk
      have hne : (other == k) = false := by simpa using h
      simp [mapSet, List.lookup, hne]
    · by_cases ho : other = k
      · subst ho
        simp [mapSet, hk, List.lookup]
      · have hne : (other == k) = false := by simpa using ho
        simp [mapSet, hk, List.lookup, hne, ih]

theorem valuesOf_append (xs : List (String × String)) (x : String × String) (key : String) :
    valuesOf (xs ++ [x]) key = valuesOf xs key ++ (if x.1 = key then [x.2] else []) := by
  unfold valuesOf
  rw [List.filter_append, List.map_append]
  by_cases h : x.1 = key
  · simp [List.filter, h]
  · have hne : (x.1 == key) = false := by simpa using h
    simp [List.filter, h, hne]

theorem paramFor_snoc (vs : List String) (v : String) :
    paramFor (vs ++ [v]) =
      match paramFor vs with
      | none => some (Value.str v)
      | some (Value.list ws) => some (Value.list (ws ++ [Value.str v]))
      | some cur => some (Value.list [cur, Value.str v]) := by
  match vs with
  | [] => rfl
  | [a] => rfl
  | a :: b :: rest => simp [paramFor]

theorem lookup_addQueryArg_self (params : List (String × Value)) (x : String × String) :
    (addQueryArg params x).lookup x.1 =
      match params.lookup x.1 with
      | none => some (Value.str x.2)
      | some (Value.list ws) => some (Value.list (ws ++ [Value.str x.2]))
      | some cur => some (Value.list [cur, Value.str x.2]) := by
  unfold addQueryArg
  cases hl : List.lookup x.1 params with
  | none => simp [lookup_mapSet_self]
  | some cur => cases cur <;> simp [lookup_mapSet_self]

theorem lookup_addQueryArg_ne (params : List (String × Value)) (x : String × String)
    (key : String) (h : key ≠ x.1) :
    (addQueryArg params x).lookup key = params.lookup key := by
  unfold addQueryArg
  cases hl : List.lookup x.1 params with
  | none => simp [lookup_mapSet_ne _ _ _ _ h]
  | some cur => simp [lookup_mapSet_ne _ _ _ _ h]

theorem lookup_foldl_addQueryArg (args : List (String × String)) (key : String) :
    (args.foldl addQueryArg []).lookup key = paramFor (valuesOf args key) := by
  induction args using List.reverseRecOn with
  | nil => rfl
  | append_singleton xs x ih =>
    rw [List.foldl_append, List.foldl_cons, List.foldl_nil, valuesOf_append]
    by_cases hk : x.1 = key
    · subst hk
      rw [if_pos rfl, paramFor_snoc, ← ih, lookup_addQueryArg_self]
    · rw [if_neg hk, List.append_nil, ← ih,
        lookup_addQueryArg_ne _ _ _ (fun h => hk h.symm)]

theorem lookup_ne_none_of_mem {β : Type} (m : List (String × β)) (x : String × β)
    (h : x ∈ m) : m.lookup x.1 ≠ none := by
  induction m with
  | nil => simp at h
  | cons y m ih =>
    obtain ⟨k, v⟩ := y
    by_cases hk : x.1 = k
    · simp [List.lookup, hk]
    · have hne : (x.1 == k) = false := by simpa using hk
      have hx : x ∈ m := by
        rcases List.mem_cons.mp h with h1 | h1
        · exact absurd (congrArg Prod.fst h1) hk
        · exact h1
      simp [List.lookup, hne, ih hx]

/-- C8: for every sequence of query-string (key, value) pairs and every key,
`makeQueryInput` leaves `params` without the key when it does not occur,
maps it to its string value when it occurs exactly once, and maps it to the
list of all its values, in their order of occurrence, when it occurs twice
or more; every key of `params` is a key of the query string. -/
theorem makeQueryInput_params (ctx : RequestCtx) (key : String) :
    (makeQueryInput ctx).Params.lookup key =
        (match valuesOf ctx.queryArgs key with
          | [] => none
          | [v] => some (Value.str v)
          | v :: w :: vs => some (Value.list ((v :: w :: vs).map Value.str))) ∧
      ∀ x ∈ (makeQueryInput ctx).Params, x.1 ∈ ctx.queryArgs.map Prod.fst := by
  have hlookup := lookup_foldl_addQueryArg ctx.queryArgs
  constructor
  · show List.lookup key (ctx.queryArgs.foldl addQueryArg []) = _
    rw [hlookup]
    match valuesOf ctx.queryArgs key with
    | [] => rfl
    | [a] => rfl
    | a :: b :: rest => rfl
  · intro x hx
    have h1 := lookup_ne_none_of_mem _ x hx
    change List.lookup x.1 (ctx.queryArgs.foldl addQueryArg []) ≠ none at h1
    rw [hlookup] at h1
    by_contra hmem
    apply h1
    have : valuesOf ctx.queryArgs x.1 = [] := by
      unfold valuesOf
      rw [List.map_eq_nil_iff, List.filter_eq_nil_iff]
      intro a ha hax
      exact hmem (List.mem_map.mpr ⟨a, ha, by simpa using hax⟩)
    rw [this]
    rfl

/-! ### Saved queries -/


/-- C9: whenever the options of the request are well formed and the evaluator
returns an error, `RunSavedQuery` answers with the status of the error's
kind: 422 for a `ValidationError`, 404 for a `NotFoundError`, 500 for a
`ParserError`, 200 for a `TimeoutError`, and 500 for any other error. -/
theorem runSavedQuery_error_status (r : RestQl) (ctx : RequestCtx) (options : QueryOptions)
    (err : EvalError) (hopts : r.makeQueryOptions ctx = .ok options)
    (herr : r.SavedQuery options (makeQueryInput ctx) = .error err) :
    (r.RunSavedQuery ctx).status =
      match err with
      | .ValidationError _ => 422
      | .NotFoundError _ => 404
      | .ParserError _ => 500
      | .TimeoutError _ => 200
      | .other _ => 500 := by
  simp only [RestQl.RunSavedQuery, hopts, herr]
  cases err <;> rfl

theorem runSavedQuery_error_status_witness :
    (timingOutServer.RunSavedQuery (runQueryRequest "1")).status = 200 :=
  runSavedQuery_error_status timingOutServer (runQueryRequest "1")
    { Namespace := "ns", Id := "q", Revision := 1, Tenant := "t" }
    (EvalError.TimeoutError "query timed out") rfl rfl

/-- C10 (amended): for every `revision` path parameter that `strconv.Atoi`
rejects, `makeQueryOptions` returns an error and no query options, and
`RunSavedQuery` answers 422 with that error whatever the evaluator is; when
the `namespace` and `queryId` parameters are given the error is
`ErrInvalidRevisionType`. -/
theorem invalid_revision_rejected (r : RestQl) (ctx : RequestCtx) (revision : String)
    (hrev : ctx.userValues.lookup "revision" = some (Value.str revision))
    (hparse : Atoi revision = none) :
    ∃ err, r.makeQueryOptions ctx = .error err ∧
      r.RunSavedQuery ctx = RespondError (NewRequestError err StatusUnprocessableEntity) ∧
      (r.RunSavedQuery ctx).status = 422 ∧
      (∀ ns queryId, pathParamString ctx "namespace" = .ok ns →
        pathParamString ctx "queryId" = .ok queryId → err = ErrInvalidRevisionType) := by
  have hfail : ∃ err, r.makeQueryOptions ctx = .error err ∧
      (∀ ns queryId, pathParamString ctx "namespace" = .ok ns →
        pathParamString ctx "queryId" = .ok queryId → err = ErrInvalidRevisionType) := by
    have hp : pathParamString ctx "revision" = .ok revision := by
      simp [pathParamString, hrev]
    unfold RestQl.makeQueryOptions
    cases h1 : pathParamString ctx "namespace" with
    | error e => exact ⟨e, rfl, fun _ _ h => by cases h⟩
    | ok ns =>
      cases h2 : pathParamString ctx "queryId" with
      | error e => exact ⟨e, rfl, fun _ _ _ h => by cases h⟩
      | ok queryId =>
        refine ⟨ErrInvalidRevisionType, ?_, fun _ _ _ _ => rfl⟩
        simp only [hp, hparse]
  obtain ⟨err, herr, hkind⟩ := hfail
  refine ⟨err, herr, ?_, ?_, hkind⟩
  · simp only [RestQl.RunSavedQuery, herr]
  · simp only [RestQl.RunSavedQuery, herr]
    rfl

theorem invalid_revision_rejected_witness :
    ∃ err, timingOutServer.makeQueryOptions (runQueryRequest "abc") = .error err ∧
      timingOutServer.RunSavedQuery (runQueryRequest "abc") =
        RespondError (NewRequestError err StatusUnprocessableEntity) ∧
      (timingOutServer.RunSavedQuery (runQueryRequest "abc")).status = 422 ∧
      (∀ ns queryId, pathParamString (runQueryRequest "abc") "namespace" = .ok ns →
        pathParamString (runQueryRequest "abc") "queryId" = .ok queryId →
        err = ErrInvalidRevisionType) :=
  invalid_revision_rejected timingOutServer (runQueryRequest "abc") "abc" rfl (by decide)

/-- C10 fails as stated: the revisions "0" and "-1" are not positive
integers, yet `makeQueryOptions` returns query options for them and
`RunSavedQuery` goes on to the evaluator (here answering 200, not 422). -/
theorem zero_and_negative_revision_accepted :
    timingOutServer.makeQueryOptions (runQueryRequest "0") =
        .ok { Namespace := "ns", Id := "q", Revision := 0, Tenant := "t" } ∧
      timingOutServer.makeQueryOptions (runQueryRequest "-1") =
        .ok { Namespace := "ns", Id := "q", Revision := -1, Tenant := "t" } ∧
      (timingOutServer.RunSavedQuery (runQueryRequest "0")).status = 200 ∧
      (timingOutServer.RunSavedQuery (runQueryRequest "0")).status ≠ 422 :=
  ⟨rfl, rfl, rfl, by decide⟩

/-! ### Tenant of a saved query -/

/-- C11: in `makeQueryOptions`, once the path parameters are read and the
revision parses, a non-empty configured tenant is the tenant of the options
whatever the `tenant` query argument is; with an empty configured tenant the
options carry the `tenant` query argument when it is non-empty; and when
both are empty `makeQueryOptions` fails with `ErrInvalidTenant`. -/
theorem makeQueryOptions_tenant (r : RestQl) (ctx : RequestCtx) (ns queryId revisionStr : String)
    (revision : Int) (hns : pathParamString ctx "namespace" = .ok ns)
    (hid : pathParamString ctx "queryId" = .ok queryId)
    (hrev : pathParamString ctx "revision" = .ok revisionStr)
    (hparse : Atoi revisionStr = some revision) :
    (r.config.Tenant ≠ "" →
        r.makeQueryOptions ctx =
          .ok { Namespace := ns, Id := queryId, Revision := revision,
                Tenant := r.config.Tenant }) ∧
      (r.config.Tenant = "" → (ctx.queryArgs.lookup "tenant").getD "" ≠ "" →
        r.makeQueryOptions ctx =
          .ok { Namespace := ns, Id := queryId, Revision := revision,
                Tenant := (ctx.queryArgs.lookup "tenant").getD "" }) ∧
      (r.config.Tenant = "" → (ctx.queryArgs.lookup "tenant").getD "" = "" →
        r.makeQueryOptions ctx = .error ErrInvalidTenant) := by
  refine ⟨?_, ?_, ?_⟩
  · intro henv
    simp only [RestQl.makeQueryOptions, hns, hid, hrev, hparse]
    simp [henv]
  · intro henv harg
    simp only [RestQl.makeQueryOptions, hns, hid, hrev, hparse]
    simp [henv, harg]
  · intro henv harg
    simp only [RestQl.makeQueryOptions, hns, hid, hrev, hparse]
    simp [henv, harg]

theorem makeQueryOptions_tenant_witness :
    (tenantServer "env").makeQueryOptions (runQueryRequestWith [("tenant", "t")]) =
        .ok { Namespace := "ns", Id := "q", Revision := 1, Tenant := "env" } ∧
      (tenantServer "").makeQueryOptions (runQueryRequestWith [("tenant", "t")]) =
        .ok { Namespace := "ns", Id := "q", Revision := 1, Tenant := "t" } ∧
      (tenantServer "").makeQueryOptions (runQueryRequestWith []) =
        .error ErrInvalidTenant :=
  ⟨(makeQueryOptions_tenant (tenantServer "env") (runQueryRequestWith [("tenant", "t")])
      "ns" "q" "1" 1 rfl rfl rfl rfl).1 (by decide),
   (makeQueryOptions_tenant (tenantServer "") (runQueryRequestWith [("tenant", "t")])
      "ns" "q" "1" 1 rfl rfl rfl rfl).2.1 rfl (by decide),
   (makeQueryOptions_tenant (tenantServer "") (runQueryRequestWith [])
      "ns" "q" "1" 1 rfl rfl rfl rfl).2.2 rfl rfl⟩

/-! ### Validate-query handlers -/

/-- C12 (amended): for every request body, the handler `validateQuery`
answers status 200 with the JSON body `Msg: "valid query"` when the parser
accepts the text and status 422 with the JSON body `Msg: "invalid query"`
when the parser returns an error, the JSON key being `Msg`; and
`RestQl.ValidateQuery` answers 200 with nil data when the parser accepts the
text and 422 with the parser's error wrapped as "invalid query" when it does
not. -/
theorem validateQuery_answers (r : RestQl) (parse : Parser) (ctx : RequestCtx) :
    (∀ q, parse ctx.postBody = .ok q →
        (validateQuery parse ctx).statusCode = 200 ∧
        (validateQuery parse ctx).body = Value.object [("Msg", Value.str "valid query")] ∧
        r.ValidateQuery parse ctx = WebCall.Respond none 200) ∧
      (∀ err, parse ctx.postBody = .error err →
        (validateQuery parse ctx).statusCode = 422 ∧
        (validateQuery parse ctx).body = Value.object [("Msg", Value.str "invalid query")] ∧
        r.ValidateQuery parse ctx =
          WebCall.RespondError
            (WebError.withStatus (WebError.plain ("invalid query" ++ ": " ++ err)) 422) ∧
        (r.ValidateQuery parse ctx).status = 422) := by
  constructor
  · intro q hq
    simp only [validateQuery, RestQl.ValidateQuery, hq]
    exact ⟨rfl, rfl, rfl⟩
  · intro err herr
    simp only [validateQuery, RestQl.ValidateQuery, herr]
    exact ⟨rfl, rfl, rfl, rfl⟩

/-- C12 fails as stated: for an accepted body and for a rejected one the only
key of the JSON body `validateQuery` writes is `Msg`, not `message`, and
`RestQl.ValidateQuery` answers an accepted body with nil data. -/
theorem validateQuery_key_is_Msg :
    (validateQuery acceptingParser (validateRequest "from hero")).body.objectKeys = ["Msg"] ∧
      (validateQuery rejectingParser (validateRequest "from")).body.objectKeys = ["Msg"] ∧
      (validateQuery acceptingParser (validateRequest "from hero")).body.objectKeys ≠
        (Value.object [("message", Value.str "valid query")]).objectKeys ∧
      (tenantServer "").ValidateQuery acceptingParser (validateRequest "from hero") =
        WebCall.Respond none 200 :=
  ⟨rfl, rfl, by decide, rfl⟩

theorem validateQuery_answers_witness :
    (validateQuery rejectingParser (validateRequest "from")).statusCode = 422 ∧
      (validateQuery rejectingParser (validateRequest "from")).body =
        Value.object [("Msg", Value.str "invalid query")] ∧
      (tenantServer "").ValidateQuery rejectingParser (validateRequest "from") =
        WebCall.RespondError
          (WebError.withStatus
            (WebError.plain ("invalid query" ++ ": " ++ "unexpected token")) 422) ∧
      ((tenantServer "").ValidateQuery rejectingParser (validateRequest "from")).status = 422 :=
  (validateQuery_answers (tenantServer "") rejectingParser (validateRequest "from")).2
    "unexpected token" rfl

/-! ### Sequential runner -/

theorem lookup_foldl_mapSet (f : Value → String) (l : List (String × Value)) :
    (l.map Prod.fst).Nodup → ∀ (acc : List (String × String)) (key : String),
      (l.foldl (fun out entry => mapSet out entry.1 (f entry.2)) acc).lookup key =
        match l.lookup key with
        | some v => some (f v)
        | none => acc.lookup key := by
  induction l with
  | nil => intro _ acc key; rfl
  | cons x l ih =>
    intro hl acc key
    obtain ⟨k, v⟩ := x
    simp only [List.map_cons, List.nodup_cons] at hl
    rw [List.foldl_cons, ih hl.2]
    by_cases hk : key = k
    · subst hk
      have hnone : l.lookup key = none := by
        cases hlk : l.lookup key with
        | none => rfl
        | some w =>
          exfalso
          apply hl.1
          have hmem : (key, w) ∈ l := by
            clear ih hl
            induction l with
            | nil => simp [List.lookup] at hlk
            | cons y l ihl =>
              obtain ⟨k2, v2⟩ := y
              by_cases h2 : key = k2
              · subst h2
                simp [List.lookup] at hlk
                subst hlk
                exact List.mem_cons_self _ _
              · have hne : (key == k2) = false := by simpa using h2
                simp only [List.lookup, hne] at hlk
                exact List.mem_cons_of_mem _ (ihl hlk)
          exact List.mem_map.mpr ⟨(key, w), hmem, rfl⟩
      simp [hnone, List.lookup, lookup_mapSet_self]
    · have hne : (key == k) = false := by simpa using hk
      simp only [List.lookup, hne]
      cases l.lookup key with
      | none => simp [lookup_mapSet_ne _ _ _ _ hk]
      | some w => rfl

theorem replaceFirst_of_not_occursIn (old new : List Char) :
    ∀ s : List Char, Eval.occursIn old s = false → Eval.replaceFirst old new s = s := by
  intro s
  induction s with
  | nil => intro _; rfl
  | cons c cs ih =>
    intro h
    simp only [Eval.occursIn, Bool.or_eq_false_iff] at h
    simp only [Eval.replaceFirst, h.1, Bool.false_eq_true, if_false, ih h.2]

/-- C13 (amended): for every statement (its `with` a map, with distinct keys)
and every mapping, the request built by `Runner.ExecuteQuery` of the `eval`
package takes `mappings[statement.Resource]` as a template and replaces the
first occurrence of `:id` by the formatted `with["id"]`; nothing else of
`with` reaches the URL, so a template without `:id` is used as it is; and
every `with` entry, `id` included, is attached as a query parameter. -/
theorem buildRequest_substitutes_only_id (sprintf : Option Value → String)
    (mappings : List (String × String)) (statement : Statement)
    (hkeys : (statement.With.map Prod.fst).Nodup) :
    (Eval.buildRequest sprintf mappings statement).Host =
        Eval.stringsReplaceOnce ((mappings.lookup statement.Resource).getD "") ":id"
          (sprintf (statement.With.lookup "id")) ∧
      (∀ other : Statement, other.Resource = statement.Resource →
        other.With.lookup "id" = statement.With.lookup "id" →
        (Eval.buildRequest sprintf mappings other).Host =
          (Eval.buildRequest sprintf mappings statement).Host) ∧
      (Eval.occursIn ":id".toList ((mappings.lookup statement.Resource).getD "").toList = false →
        (Eval.buildRequest sprintf mappings statement).Host =
          (mappings.lookup statement.Resource).getD "") ∧
      (∀ key, (Eval.buildRequest sprintf mappings statement).Query.lookup key =
        (statement.With.lookup key).map fun v => sprintf (some v)) ∧
      (∀ v, statement.With.lookup "id" = some v →
        (Eval.buildRequest sprintf mappings statement).Query.lookup "id" =
          some (sprintf (some v))) := by
  have hquery : ∀ key, (Eval.buildRequest sprintf mappings statement).Query.lookup key =
      (statement.With.lookup key).map fun v => sprintf (some v) := by
    intro key
    show List.lookup key (Eval.formatEntries sprintf statement.With) = _
    unfold Eval.formatEntries
    rw [lookup_foldl_mapSet (fun v => sprintf (some v)) statement.With hkeys]
    cases statement.With.lookup key <;> rfl
  refine ⟨rfl, ?_, ?_, hquery, ?_⟩
  · intro other hres hid
    simp only [Eval.buildRequest, hres, hid]
  · intro hno
    simp only [Eval.buildRequest, Eval.stringsReplaceOnce]
    rw [replaceFirst_of_not_occursIn _ _ _ hno]
    rfl
  · intro v hv
    rw [hquery, hv]
    rfl

theorem buildRequest_substitutes_only_id_witness :
    (Eval.buildRequest Eval.sprintfPrimitive Eval.heroMappings Eval.heroByIdAndName).Host =
        "http://h/hero/7/:name" ∧
      (Eval.buildRequest Eval.sprintfPrimitive Eval.heroMappings
        Eval.heroByIdAndName).Query.lookup "id" = some "7" :=
  ⟨(buildRequest_substitutes_only_id Eval.sprintfPrimitive Eval.heroMappings
      Eval.heroByIdAndName (by decide)).1,
   (buildRequest_substitutes_only_id Eval.sprintfPrimitive Eval.heroMappings
      Eval.heroByIdAndName (by decide)).2.2.2.2 (Value.int 7) rfl⟩

/-- C13 fails as stated: for `from hero with id = 7, name = "x"` and the
template `http://h/hero/:id/:name` the client is handed the host
`http://h/hero/7/:name`, the token `:name` not substituted, and the query
parameters `id` and `name`, although `id` went into the URL. -/
theorem executeQuery_keeps_name_token_and_sends_id :
    Eval.Runner.ExecuteQuery { client := Eval.echoClient } Eval.sprintfPrimitive
        { Use := [], Statements := [Eval.heroByIdAndName] } Eval.heroMappings =
        some [Value.object
          [("host", Value.str "http://h/hero/7/:name"),
           ("query", Value.object [("id", Value.str "7"), ("name", Value.str "x")])]] ∧
      (Eval.buildRequest Eval.sprintfPrimitive Eval.heroMappings Eval.heroByIdAndName).Host ≠
        "http://h/hero/7/x" ∧
      (Eval.buildRequest Eval.sprintfPrimitive Eval.heroMappings
        Eval.heroByIdAndName).Query.lookup "id" ≠ none :=
  ⟨rfl, by decide, by decide⟩

/-! ### Persistence -/

theorem FindQuery_in_range (q : Database.query) (ns name : String) (revisionNumber : Int)
    (hsize : q.Size = q.Revisions.length) (hlo : 1 ≤ revisionNumber)
    (hhi : revisionNumber ≤ q.Size) :
    ∃ r, q.Revisions.get? (revisionNumber - 1).toNat = some r ∧
      Database.FindQuery (.ok q) ns name revisionNumber = Database.GoResult.ok r.Text := by
  have hidx : (revisionNumber - 1).toNat < q.Revisions.length := by omega
  obtain ⟨r, hr⟩ : ∃ r, q.Revisions.get? (revisionNumber - 1).toNat = some r :=
    ⟨_, List.get?_eq_get hidx⟩
  refine ⟨r, hr, ?_⟩
  have hguard : ¬ (q.Size < revisionNumber ∨ revisionNumber < 0) := by omega
  have hrange : 0 ≤ revisionNumber - 1 ∧ revisionNumber - 1 < (q.Revisions.length : Int) := by
    omega
  simp only [Database.FindQuery, hguard, if_false, Database.indexRevisions, hrange, and_self,
    if_true, hr]

theorem FindQuery_revision_zero_panics (q : Database.query) (ns name : String)
    (hsize : q.Size = q.Revisions.length) :
    Database.FindQuery (.ok q) ns name 0 = Database.GoResult.panic "index out of range" := by
  have hguard : ¬ (q.Size < 0 ∨ (0 : Int) < 0) := by omega
  simp only [Database.FindQuery, hguard, if_false, Database.indexRevisions]
  rfl

/-- C14, evaluated at a failing input: for a stored query with one revision
(`Size` 1) the revision 0 passes the guard `q.Size < revision || revision < 0`
and `FindQuery` then indexes `Revisions[-1]`, a run-time panic; it returns
neither an error nor a text, while revision 1 gives the text and revision 2
an error. -/
theorem findQuery_revision_zero_out_of_range :
    ¬ (Database.storedQuery.Size < 0 ∨ (0 : Int) < 0) ∧
      Database.FindQuery (.ok Database.storedQuery) "ns" "q" 0 =
        Database.GoResult.panic "index out of range" ∧
      Database.FindQuery (.ok Database.storedQuery) "ns" "q" 1 =
        Database.GoResult.ok "from hero" ∧
      Database.FindQuery (.ok Database.storedQuery) "ns" "q" 2 =
        Database.GoResult.error
          "invalid revision for query ns/q : major revision 1 : given revision 2" :=
  ⟨by decide, rfl, rfl, rfl⟩

theorem fillMappings_eq {Mapping : Type} (zero : Mapping)
    (NewMapping : String → String → Except GoError Mapping)
    (entries : List (String × String)) :
    ∀ (filled : List Mapping) (free : Nat), entries.length ≤ free →
      Database.fillMappings NewMapping entries (filled ++ List.replicate free zero)
          filled.length =
        filled ++ Database.builtMappings NewMapping entries ++
          List.replicate (free - (Database.builtMappings NewMapping entries).length) zero := by
  induction entries with
  | nil =>
    intro filled free _
    simp [Database.fillMappings, Database.builtMappings]
  | cons entry rest ih =>
    intro filled free hlen
    simp only [List.length_cons] at hlen
    cases hnew : NewMapping entry.1 entry.2 with
    | error err =>
      simp only [Database.fillMappings, Database.builtMappings, hnew]
      exact ih filled free (by omega)
    | ok mapping =>
      simp only [Database.fillMappings, Database.builtMappings, hnew, List.length_cons]
      obtain ⟨k, rfl⟩ : ∃ k, free = k + 1 := ⟨free - 1, by omega⟩
      have hset : (filled ++ List.replicate (k + 1) zero).set filled.length mapping =
          (filled ++ [mapping]) ++ List.replicate k zero := by
        rw [List.set_append_right _ _ (le_refl _)]
        simp [List.replicate_succ]
      have hnext := ih (filled ++ [mapping]) k (by omega)
      rw [List.length_append, List.length_singleton] at hnext
      rw [hset, hnext]
      simp [List.append_assoc]

theorem FindMappingsForTenant_eq {Mapping : Type} (zero : Mapping)
    (NewMapping : String → String → Except GoError Mapping) (t : Database.tenant) :
    Database.FindMappingsForTenant zero NewMapping (.ok t) =
      .ok (Database.builtMappings NewMapping t.Mappings ++
        List.replicate (t.Mappings.length -
          (Database.builtMappings NewMapping t.Mappings).length) zero) := by
  have h := fillMappings_eq zero NewMapping t.Mappings [] t.Mappings.length (le_refl _)
  simp only [List.nil_append, List.length_nil] at h
  simp only [Database.FindMappingsForTenant, h]

/-- C15, evaluated at a failing input: for a tenant document with two
mappings of which `NewMapping` rejects the first, `FindMappingsForTenant`
returns a slice of length two, the built mapping followed by a zero-valued
`Mapping`, while `NewMapping` succeeded for one entry only. -/
theorem findMappingsForTenant_keeps_zero_placeholder :
    Database.FindMappingsForTenant ("", "") Database.sampleNewMapping
        (.ok Database.storedTenant) =
        .ok [("hero", "http://h/hero"), ("", "")] ∧
      Database.builtMappings Database.sampleNewMapping Database.storedTenant.Mappings =
        [("hero", "http://h/hero")] ∧
      (Database.builtMappings Database.sampleNewMapping
        Database.storedTenant.Mappings).length = 1 :=
  ⟨rfl, rfl, rfl⟩

end RestQL
